import Mathlib

/-!
Verification of the multi-format text extraction subsystem and the
filesystem collaborator operations of the `filesystem` MCP server
(`src/filesystem/main.py`).

The Python code is shallowly embedded:

* `os.path.splitext` / `os.path.basename` / `os.path.join` are modelled for
  POSIX path rules (separator `/`), character-for-character after CPython's
  `posixpath` implementation.
* The platform filesystem is a state `FS`: a partial map from path strings to
  file contents, plus permission predicates abstracting the ways in which a
  platform primitive may fail (destination not writable, unlink not
  permitted, touch not permitted).
* External decoder libraries that the reader merely calls through
  (`json.load`, `ET.parse`, `pandas.read_excel`, `python-docx`,
  `yaml.safe_load`/`yaml.dump`) are oracles bundled in a `Sys` record; the
  reader's own logic (dispatch, error routing, `json.dumps` with
  `indent=4, ensure_ascii=False`, and the `csv` module's default-dialect
  parsing plus re-joining) is embedded concretely.
* A Python function that returns a value and prints diagnostics is modelled
  as a `PyRun`: the list of printed diagnostics together with either the
  returned value (`Except.ok`) or an uncaught exception (`Except.error`).
-/

/-- POSIX `os.path.basename`: the part of the path after the last `/`. -/
def os_basename (p : String) : String :=
  String.mk ((p.toList.reverse.takeWhile (fun c => c ≠ '/')).reverse)

/-- POSIX `os.path.join` for two components: if the second starts with `/` it
replaces the first; otherwise they are joined with `/` unless the first is
empty or already ends with `/`. -/
def osJoin (a b : String) : String :=
  if b.toList.head? = some '/' then b
  else if a = "" ∨ a.toList.getLast? = some '/' then a ++ b
  else a ++ "/" ++ b

/-- POSIX `os.path.splitext`, extension part only: the suffix of the basename
from its last dot, except that a basename consisting of leading dots only up
to that dot has no extension (`.bashrc` has extension `""`). -/
def splitext_ext (p : String) : String :=
  let base := (p.toList.reverse.takeWhile (fun c => c ≠ '/')).reverse
  let r := base.reverse
  let afterDot := r.takeWhile (fun c => c ≠ '.')
  if afterDot.length = r.length then ""
  else if (r.drop (afterDot.length + 1)).all (fun c => c = '.') then ""
  else String.mk ('.' :: afterDot.reverse)

/-- The platform filesystem state seen by the collaborator primitives.
`files` maps a path to the content of the file stored there (if any); the
three predicates abstract platform-dependent failure causes (permissions,
missing parent directories) of the corresponding primitives. -/
structure FS where
  files : String → Option String
  writable : String → Bool
  removable : String → Bool
  touchable : String → Bool

/-- `shutil.copy2(src, dst)` as used by `copy_file`: copies the content of
`src` over `dst`; raises (here: `false`) when `src` is missing or `dst` is
not writable.  `copy_file` catches every failure and returns a flag. -/
def copy_file (fs : FS) (src dst : String) : Bool × FS :=
  match fs.files src with
  | none => (false, fs)
  | some c =>
    if fs.writable dst then
      (true, { fs with files := fun q => if q = dst then some c else fs.files q })
    else (false, fs)

/-- `shutil.move(src, dst)` as used by `move_file`: like copy but the source
entry is removed on success. -/
def move_file (fs : FS) (src dst : String) : Bool × FS :=
  match fs.files src with
  | none => (false, fs)
  | some c =>
    if fs.writable dst then
      (true, { fs with files := fun q =>
        if q = dst then some c else if q = src then none else fs.files q })
    else (false, fs)

/-- `batch_copy_files`: iterates over the source paths in order, copying each
to the destination directory joined with the source's basename, collecting
the per-file success flags. -/
def batch_copy_files (fs : FS) (src_paths : List String) (dst_dir : String) :
    List Bool × FS :=
  match src_paths with
  | [] => ([], fs)
  | src :: rest =>
    let r := copy_file fs src (osJoin dst_dir (os_basename src))
    let rr := batch_copy_files r.2 rest dst_dir
    (r.1 :: rr.1, rr.2)

/-- `batch_move_files`: iterates over the source paths in order, moving each
to the destination directory joined with the source's basename, collecting
the per-file success flags. -/
def batch_move_files (fs : FS) (src_paths : List String) (dst_dir : String) :
    List Bool × FS :=
  match src_paths with
  | [] => ([], fs)
  | src :: rest =>
    let r := move_file fs src (osJoin dst_dir (os_basename src))
    let rr := batch_move_files r.2 rest dst_dir
    (r.1 :: rr.1, rr.2)

/-- `os.unlink`: removes the file, raising (`Except.error`) when it does not
exist or removal is not permitted. -/
def os_unlink (fs : FS) (p : String) : Except String FS :=
  match fs.files p with
  | none => .error ("No such file or directory: " ++ p)
  | some _ =>
    if fs.removable p then
      .ok { fs with files := fun q => if q = p then none else fs.files q }
    else .error ("Permission denied: " ++ p)

/-- `os.remove`: in CPython this is the very same platform call as
`os.unlink`; its semantics are identical. -/
def os_remove (fs : FS) (p : String) : Except String FS :=
  match fs.files p with
  | none => .error ("No such file or directory: " ++ p)
  | some _ =>
    if fs.removable p then
      .ok { fs with files := fun q => if q = p then none else fs.files q }
    else .error ("Permission denied: " ++ p)

/-- `delete_file(file_path, permanent)`: calls `os.unlink` when `permanent`
and `os.remove` otherwise; any exception is caught and turned into `false`,
leaving the state unchanged. -/
def delete_file (fs : FS) (file_path : String) (permanent : Bool) : Bool × FS :=
  match (if permanent then os_unlink fs file_path else os_remove fs file_path) with
  | .ok fs2 => (true, fs2)
  | .error _ => (false, fs)

/-- `restore_file_from_recycle_bin(file_path)`: runs `Path(file_path).touch()`
and returns whether it succeeded.  `touch` creates an empty file when the
path does not exist and otherwise only updates the timestamp, leaving the
existing content untouched. -/
def restore_file_from_recycle_bin (fs : FS) (file_path : String) : Bool × FS :=
  if fs.touchable file_path then
    (true, { fs with files := fun q =>
      if q = file_path then some ((fs.files file_path).getD "") else fs.files q })
  else (false, fs)

/-! ### The `csv` module's default-dialect reader

The source opens `.csv`/`.tsv` files in text mode (universal newlines) and
feeds them to `csv.reader` with the respective delimiter; the default
dialect has quote character `"`, doubled quotes as escapes, and non-strict
recovery.  The parser below is the character-level state machine of
CPython's `_csv` reader restricted to that dialect, after universal-newline
translation has replaced `\r\n` and lone `\r` by `\n`. -/

/-- Universal-newline translation performed by `open(..., "r")`:
`\r\n` and lone `\r` both become `\n`. -/
def univNl : List Char → List Char
  | [] => []
  | [c] => if c = '\r' then ['\n'] else [c]
  | c :: c2 :: cs =>
    if c = '\r' then
      if c2 = '\n' then '\n' :: univNl cs else '\n' :: univNl (c2 :: cs)
    else c :: univNl (c2 :: cs)

/-- Parser states of the `_csv` reader (default dialect, no escape char). -/
inductive CsvMode
  | startRecord
  | startField
  | inField
  | inQuoted
  | quoteInQuoted
deriving DecidableEq

/-- The `_csv` reader state machine.  `rows` are the finished records,
`row` the fields of the current record, `f` the current field; a record
ends at `\n` (outside quotes) or at end of input (non-strict: an
unterminated quoted field is kept). -/
def csvRun (d : Char) (rows : List (List (List Char))) (row : List (List Char))
    (f : List Char) : CsvMode → List Char → List (List (List Char))
  | .startRecord, [] => rows
  | .startField, [] => rows ++ [row ++ [f]]
  | .inField, [] => rows ++ [row ++ [f]]
  | .inQuoted, [] => rows ++ [row ++ [f]]
  | .quoteInQuoted, [] => rows ++ [row ++ [f]]
  | .startRecord, c :: cs =>
    if c = '\n' then csvRun d (rows ++ [[]]) [] [] .startRecord cs
    else if c = '"' then csvRun d rows row [] .inQuoted cs
    else if c = d then csvRun d rows (row ++ [[]]) [] .startField cs
    else csvRun d rows row [c] .inField cs
  | .startField, c :: cs =>
    if c = '"' then csvRun d rows row [] .inQuoted cs
    else if c = d then csvRun d rows (row ++ [[]]) [] .startField cs
    else if c = '\n' then csvRun d (rows ++ [row ++ [[]]]) [] [] .startRecord cs
    else csvRun d rows row [c] .inField cs
  | .inField, c :: cs =>
    if c = '\n' then csvRun d (rows ++ [row ++ [f]]) [] [] .startRecord cs
    else if c = d then csvRun d rows (row ++ [f]) [] .startField cs
    else csvRun d rows row (f ++ [c]) .inField cs
  | .inQuoted, c :: cs =>
    if c = '"' then csvRun d rows row f .quoteInQuoted cs
    else csvRun d rows row (f ++ [c]) .inQuoted cs
  | .quoteInQuoted, c :: cs =>
    if c = '"' then csvRun d rows row (f ++ ['"']) .inQuoted cs
    else if c = d then csvRun d rows (row ++ [f]) [] .startField cs
    else if c = '\n' then csvRun d (rows ++ [row ++ [f]]) [] [] .startRecord cs
    else csvRun d rows row (f ++ [c]) .inField cs

/-- The record list `csv.reader` produces for the translated content. -/
def csvParseChars (d : Char) (cs : List Char) : List (List (List Char)) :=
  csvRun d [] [] [] .startRecord (univNl cs)

/-- `list(csv.reader(f, delimiter=d))` on a file with content `s`, fields as
strings. -/
def csvParse (d : Char) (s : String) : List (List String) :=
  (csvParseChars d s.data).map (fun row => row.map String.mk)

/-- `sep.join`-style interspersion over character lists. -/
def joinWith (sep : List Char) : List (List Char) → List Char
  | [] => []
  | [x] => x
  | x :: xs => x ++ sep ++ joinWith sep xs

/-- Character-level form of the delimited-table branch:
`"\n".join([delimiter.join(row) for row in reader])`. -/
def csvDecodeChars (d : Char) (cs : List Char) : List Char :=
  joinWith ['\n'] ((csvParseChars d cs).map (joinWith [d]))

/-- The delimited-table decoder as a function on file content: parse with
the `csv` reader for delimiter `d`, re-join fields with `d` and records
with `\n`. -/
def csv_decode (d : Char) (s : String) : String :=
  String.mk (csvDecodeChars d s.data)

/-! ### `json.dumps(data, indent=4, ensure_ascii=False)` -/

mutual

/-- A parsed JSON value as produced by `json.load` (object member order is
insertion order, i.e. source order).  Arrays and objects carry their
children through the mutual types `JsonItems` / `JsonMembers` so that the
serializer below is plain structural recursion. -/
inductive Json
  | null
  | bool (b : Bool)
  | num (n : Int)
  | str (s : String)
  | arr (xs : JsonItems)
  | obj (kvs : JsonMembers)

inductive JsonItems
  | nil
  | cons (hd : Json) (tl : JsonItems)

inductive JsonMembers
  | nil
  | cons (k : String) (v : Json) (tl : JsonMembers)

end

/-- Lowercase hexadecimal digit. -/
def hexDigit (n : Nat) : Char :=
  if n < 10 then Char.ofNat (48 + n) else Char.ofNat (87 + n)

/-- How `json.dumps` with `ensure_ascii=False` escapes one character inside a
string literal: only the quote, the backslash and control characters are
escaped; everything else (including non-ASCII) is kept literally. -/
def jsonEscapeChar (c : Char) : List Char :=
  if c = '"' then ['\\', '"']
  else if c = '\\' then ['\\', '\\']
  else if c = '\n' then ['\\', 'n']
  else if c = '\t' then ['\\', 't']
  else if c = '\r' then ['\\', 'r']
  else if c = Char.ofNat 8 then ['\\', 'b']
  else if c = Char.ofNat 12 then ['\\', 'f']
  else if c.toNat < 32 then
    ['\\', 'u', '0', '0', hexDigit (c.toNat / 16), hexDigit (c.toNat % 16)]
  else [c]

/-- A JSON string literal with `ensure_ascii=False` escaping. -/
def jsonQuote (s : String) : String :=
  "\"" ++ String.mk ((s.data.map jsonEscapeChar).flatten) ++ "\""

/-- Indentation string at nesting level `lvl` for `indent=4`. -/
def indentOf (lvl : Nat) : String :=
  String.mk (List.replicate (4 * lvl) ' ')

mutual

/-- `json.dumps(v, indent=4, ensure_ascii=False)` at nesting level `lvl`:
container items are one per line, indented one level deeper, with item
separator `,\n` and key separator `": "`. -/
def jdumpVal (lvl : Nat) : Json → String
  | .null => "null"
  | .bool true => "true"
  | .bool false => "false"
  | .num n => toString n
  | .str s => jsonQuote s
  | .arr .nil => "[]"
  | .arr (.cons x xs) =>
    "[\n" ++ indentOf (lvl + 1) ++ jdumpVal (lvl + 1) x
      ++ jdumpItems (lvl + 1) xs ++ "\n" ++ indentOf lvl ++ "]"
  | .obj .nil => "\x7b\x7d"
  | .obj (.cons k v kvs) =>
    "\x7b\n" ++ indentOf (lvl + 1) ++ jsonQuote k ++ ": "
      ++ jdumpVal (lvl + 1) v
      ++ jdumpMembers (lvl + 1) kvs ++ "\n" ++ indentOf lvl ++ "\x7d"

/-- The remaining array items, each rendered as `,\n` + indent + item. -/
def jdumpItems (lvl : Nat) : JsonItems → String
  | .nil => ""
  | .cons x xs => ",\n" ++ indentOf lvl ++ jdumpVal lvl x ++ jdumpItems lvl xs

/-- The remaining object members, each rendered as `,\n` + indent + key +
`": "` + value. -/
def jdumpMembers (lvl : Nat) : JsonMembers → String
  | .nil => ""
  | .cons k v kvs =>
    ",\n" ++ indentOf lvl ++ jsonQuote k ++ ": " ++ jdumpVal lvl v
      ++ jdumpMembers lvl kvs

end

/-- `json.dumps(v, indent=4, ensure_ascii=False)` at top level. -/
def json_dumps (v : Json) : String :=
  jdumpVal 0 v

/-! ### The Format-Dispatched Reader `read_text_from_file` -/

/-- The runtime surrounding one call of `read_text_from_file`:
`os.path.exists`, reading a file as UTF-8 text (with universal newlines),
and the external decoder libraries, each of which may raise
(`Except.error` carries the exception's message).  `X` is the opaque
element-tree type of `xml.etree.ElementTree`, `Z` the opaque value-tree
type of PyYAML.  `yamlDump`'s two flags are `default_flow_style` and
`allow_unicode`. -/
structure Sys (X Z : Type) where
  path_exists : String → Bool
  readText : String → Except String String
  jsonLoad : String → Except String Json
  etParseFile : String → Except String X
  etTostring : X → String
  readExcelSheetStrings : String → Except String (List String)
  docParagraphTexts : String → Except String (List String)
  yamlAvailable : Bool
  yamlSafeLoad : String → Except String Z
  yamlDump : Bool → Bool → Z → String

deriving instance DecidableEq for Except

/-- The observable outcome of one Python call: the diagnostics it printed
and either its return value (`Except.ok`) or an exception it let escape
(`Except.error`). -/
structure PyRun where
  printed : List String
  result : Except String (Option String)
deriving DecidableEq

/-- The plain-text extension tuple of the first dispatch branch. -/
def plainExts : List String :=
  [".txt", ".log", ".md", ".ini", ".cfg", ".sql", ".bat", ".sh"]

/-- The closed set of structural format families the reader dispatches
over; `unsupported` is the fall-through arm. -/
inductive FormatKind
  | plainText
  | jsonFile
  | xmlFile
  | delimitedTable
  | spreadsheet
  | document
  | markup
  | yamlFile
  | unsupported
deriving DecidableEq

/-- The extension dispatch of `read_text_from_file` as a mapping: one arm
per branch of the source's `if`/`elif` chain, in source order, on the
extension exactly as `os.path.splitext` returned it (no case folding). -/
def classify (file_ext : String) : FormatKind :=
  if file_ext ∈ plainExts then .plainText
  else if file_ext = ".json" then .jsonFile
  else if file_ext = ".xml" then .xmlFile
  else if file_ext = ".csv" ∨ file_ext = ".tsv" then .delimitedTable
  else if file_ext = ".xlsx" ∨ file_ext = ".xls" then .spreadsheet
  else if file_ext = ".docx" ∨ file_ext = ".doc" then .document
  else if file_ext = ".html" ∨ file_ext = ".htm" then .markup
  else if file_ext = ".yaml" ∨ file_ext = ".yml" then .yamlFile
  else .unsupported

/-- The body of `read_text_from_file` up to but excluding the outermost
`try`/`except`: the existence check, the extension dispatch and the
format branches with their inner handlers.  `Except.error e` is an
exception about to reach the outer boundary; `Except.ok (printed, r)`
is a normal return of `r` after printing `printed`. -/
def read_text_body {X Z : Type} (sys : Sys X Z) (file_path : String) :
    Except String (List String × Option String) :=
  if sys.path_exists file_path = false then
    .ok (["文件不存在: " ++ file_path], none)
  else
    let file_ext := splitext_ext file_path
    if file_ext ∈ plainExts then
      match sys.readText file_path with
      | .error e => .error e
      | .ok c => .ok ([], some c)
    else if file_ext = ".json" then
      match sys.readText file_path with
      | .error e => .error e
      | .ok c =>
        match sys.jsonLoad c with
        | .error e => .error e
        | .ok v => .ok ([], some (json_dumps v))
    else if file_ext = ".xml" then
      match sys.etParseFile file_path with
      | .error e => .error e
      | .ok t => .ok ([], some (sys.etTostring t))
    else if file_ext = ".csv" ∨ file_ext = ".tsv" then
      let delimiter := if file_ext = ".csv" then ',' else '\t'
      match sys.readText file_path with
      | .error e => .error e
      | .ok c => .ok ([], some (csv_decode delimiter c))
    else if file_ext = ".xlsx" ∨ file_ext = ".xls" then
      match sys.readExcelSheetStrings file_path with
      | .error e => .ok (["读取 Excel 文件失败: " ++ e], none)
      | .ok sheets => .ok ([], some (String.intercalate "\n" sheets))
    else if file_ext = ".docx" ∨ file_ext = ".doc" then
      match sys.docParagraphTexts file_path with
      | .error e => .ok (["读取 Word 文件失败: " ++ e], none)
      | .ok ps => .ok ([], some (String.intercalate "\n" ps))
    else if file_ext = ".html" ∨ file_ext = ".htm" then
      match sys.readText file_path with
      | .error e => .error e
      | .ok c => .ok ([], some c)
    else if file_ext = ".yaml" ∨ file_ext = ".yml" then
      if sys.yamlAvailable = false then
        .ok (["请安装 PyYAML 库以支持 YAML 文件: pip install pyyaml"], none)
      else
        match sys.readText file_path with
        | .error e => .ok (["读取 YAML 文件失败: " ++ e], none)
        | .ok c =>
          match sys.yamlSafeLoad c with
          | .error e => .ok (["读取 YAML 文件失败: " ++ e], none)
          | .ok v => .ok ([], some (sys.yamlDump false true v))
    else
      .ok (["不支持的文件格式: " ++ file_ext], none)

/-- `read_text_from_file(file_path)`: the body wrapped in the outermost
`try`/`except Exception`, which prints a diagnostic and returns `None`
for any exception the body lets through. -/
def read_text_from_file {X Z : Type} (sys : Sys X Z) (file_path : String) :
    PyRun :=
  match read_text_body sys file_path with
  | .ok pr => { printed := pr.1, result := .ok pr.2 }
  | .error e => { printed := ["读取文件失败: " ++ e], result := .ok none }

/-! ### Claim theorems -/

/-- C1: for every runtime and every path, `read_text_from_file` returns a
value (text payload or Absence) — its result is always `Except.ok`, never an
uncaught exception — and any exception the body lets reach the outer
boundary is caught and converted to the Absence value with the boundary
diagnostic. -/
theorem extract_text_total {X Z : Type} (sys : Sys X Z) (p : String) :
    (∃ v : Option String, (read_text_from_file sys p).result = .ok v) ∧
    (∀ e : String, read_text_body sys p = .error e →
      read_text_from_file sys p =
        { printed := ["读取文件失败: " ++ e], result := .ok none }) := by
  constructor
  · unfold read_text_from_file
    cases read_text_body sys p with
    | ok pr => exact ⟨pr.2, rfl⟩
    | error e => exact ⟨none, rfl⟩
  · intro e he
    unfold read_text_from_file
    rw [he]

/-- Witness for C1: a runtime whose file read raises `boom` on a `.txt`
path; the exception is converted to the Absence value at the boundary. -/
def sysRaise : Sys Unit Unit where
  path_exists := fun _ => true
  readText := fun _ => .error "boom"
  jsonLoad := fun _ => .error "boom"
  etParseFile := fun _ => .error "boom"
  etTostring := fun _ => ""
  readExcelSheetStrings := fun _ => .error "boom"
  docParagraphTexts := fun _ => .error "boom"
  yamlAvailable := false
  yamlSafeLoad := fun _ => .error "boom"
  yamlDump := fun _ _ _ => ""

theorem extract_text_total_witness :
    read_text_from_file sysRaise "a.txt" =
      { printed := ["读取文件失败: " ++ "boom"], result := .ok none } :=
  (extract_text_total sysRaise "a.txt").2 "boom" (by decide)

/-- C2: for every runtime and every path that does not resolve to an
existing file — whatever extension the path carries — the reader returns
Absence (`None` plus the not-found diagnostic naming the path) and no
exception escapes. -/
theorem extract_text_not_found {X Z : Type} (sys : Sys X Z) (p : String)
    (h : sys.path_exists p = false) :
    read_text_from_file sys p =
      { printed := ["文件不存在: " ++ p], result := .ok none } := by
  unfold read_text_from_file read_text_body
  simp [h]

theorem extract_text_not_found_witness :
    read_text_from_file
      { sysRaise with path_exists := fun _ => false } "missing.xyz" =
      { printed := ["文件不存在: " ++ "missing.xyz"], result := .ok none } :=
  extract_text_not_found { sysRaise with path_exists := fun _ => false }
    "missing.xyz" (by decide)

/-- C9: `delete_file` with `permanent=true` and with `permanent=false` are
behaviorally equivalent: both branches are the same unconditional
unlink-equivalent (`os.unlink` and `os.remove` are the same platform
call), returning the same flag and producing the same state. -/
theorem delete_file_permanent_flag_irrelevant (fs : FS) (p : String) :
    delete_file fs p true = delete_file fs p false := by
  have h : os_unlink fs p = os_remove fs p := rfl
  unfold delete_file
  rw [if_pos rfl, if_neg Bool.false_ne_true, h]

/-- A concrete runtime in which every path exists and reads as `hi`, all
structured decoders fail, and YAML is unavailable. -/
def sysPlain : Sys Unit Unit where
  path_exists := fun _ => true
  readText := fun _ => .ok "hi"
  jsonLoad := fun _ => .error "e"
  etParseFile := fun _ => .error "e"
  etTostring := fun _ => ""
  readExcelSheetStrings := fun _ => .error "e"
  docParagraphTexts := fun _ => .error "e"
  yamlAvailable := false
  yamlSafeLoad := fun _ => .error "e"
  yamlDump := fun _ _ _ => ""

/-- C3 counterexample: classification is NOT case-folded.  The extensions
`.TXT` and `.txt` differ only in letter case, yet they are dispatched to
different format arms: on the same runtime, `a.TXT` is rejected as an
unsupported format while `a.txt` is read as plain text. -/
theorem classify_not_case_folded_cex :
    classify ".TXT" ≠ classify ".txt" ∧
    read_text_from_file sysPlain "a.TXT" ≠ read_text_from_file sysPlain "a.txt" :=
  ⟨by decide, by decide⟩

/-- C3 amended: classification is a pure function of the exact
(case-sensitive) extension, and every existing path whose extension is not
literally in the mapping yields Absence citing that extension, regardless
of file content. -/
theorem extract_text_unsupported {X Z : Type} (sys : Sys X Z) (p : String)
    (hex : sys.path_exists p = true)
    (hc : classify (splitext_ext p) = .unsupported) :
    read_text_from_file sys p =
      { printed := ["不支持的文件格式: " ++ splitext_ext p], result := .ok none } := by
  unfold classify at hc
  split_ifs at hc with h1 h2 h3 h4 h5 h6 h7 h8
  have hb : read_text_body sys p =
      .ok (["不支持的文件格式: " ++ splitext_ext p], none) := by
    unfold read_text_body
    rw [hex]
    simp only [Bool.true_eq_false, if_false]
    rw [if_neg h1, if_neg h2, if_neg h3, if_neg h4, if_neg h5, if_neg h6,
      if_neg h7, if_neg h8]
  unfold read_text_from_file
  rw [hb]

theorem extract_text_unsupported_witness :
    read_text_from_file sysPlain "a.xyz" =
      { printed := ["不支持的文件格式: " ++ splitext_ext "a.xyz"],
        result := .ok none } :=
  extract_text_unsupported sysPlain "a.xyz" (by decide) (by decide)

/-- A filesystem in which path `a` holds the non-empty content `x` and
every operation is permitted. -/
def fsX : FS where
  files := fun q => if q = "a" then some "x" else none
  writable := fun _ => true
  removable := fun _ => true
  touchable := fun _ => true

/-- C8 counterexample: restoring over an existing non-empty file succeeds
but does NOT leave an empty file — `Path.touch()` preserves the existing
content `x`. -/
theorem restore_not_empty_cex :
    (restore_file_from_recycle_bin fsX "a").1 = true ∧
    (restore_file_from_recycle_bin fsX "a").2.files "a" ≠ some "" :=
  ⟨by decide, by decide⟩

/-- C8 amended: whenever the restore primitive succeeds, a file exists at
the path afterwards; it is empty when the path did not previously exist,
and otherwise keeps its previous content unchanged (`touch`, not
truncate). -/
theorem restore_touch_semantics (fs : FS) (p : String)
    (h : (restore_file_from_recycle_bin fs p).1 = true) :
    (restore_file_from_recycle_bin fs p).2.files p =
      some ((fs.files p).getD "") := by
  unfold restore_file_from_recycle_bin at h ⊢
  by_cases ht : fs.touchable p = true
  · rw [if_pos ht]
    simp
  · rw [if_neg ht] at h
    simp at h

theorem restore_touch_semantics_witness :
    (restore_file_from_recycle_bin fsX "b").2.files "b" =
      some ((fsX.files "b").getD "") :=
  restore_touch_semantics fsX "b" (by decide)

/-- Branch reduction: on an existing path with extension `.json`, the body
reads the file, parses it with `json.load` and re-serializes with
`json.dumps(·, indent=4, ensure_ascii=False)`; parse and read failures
raise out of the branch. -/
theorem read_text_body_json {X Z : Type} (sys : Sys X Z) (p : String)
    (hex : sys.path_exists p = true) (hext : splitext_ext p = ".json") :
    read_text_body sys p =
      (match sys.readText p with
       | .error e => .error e
       | .ok c =>
         match sys.jsonLoad c with
         | .error e => .error e
         | .ok v => .ok ([], some (json_dumps v))) := by
  unfold read_text_body
  rw [hex]
  simp only [Bool.true_eq_false, if_false, hext]
  rw [if_neg (by decide), if_pos trivial]

/-- C4: for every existing `.json` path whose content parses as a JSON
value, the reader returns the value re-serialized with 4-space indentation
and non-ASCII preserved (`json_dumps`); when parsing fails the exception is
caught at the boundary and Absence is returned.  In particular the value
parsed from a file containing only the object member `a: 1` re-serializes
to the indented form. -/
theorem extract_text_json {X Z : Type} (sys : Sys X Z) (p : String)
    (hex : sys.path_exists p = true) (hext : splitext_ext p = ".json") :
    (∀ c v, sys.readText p = .ok c → sys.jsonLoad c = .ok v →
      read_text_from_file sys p =
        { printed := [], result := .ok (some (json_dumps v)) }) ∧
    (∀ c e, sys.readText p = .ok c → sys.jsonLoad c = .error e →
      read_text_from_file sys p =
        { printed := ["读取文件失败: " ++ e], result := .ok none }) ∧
    json_dumps (.obj (.cons "a" (.num 1) .nil)) = "\x7b\n    \"a\": 1\n\x7d" := by
  refine ⟨?_, ?_, by decide⟩
  · intro c v hr hj
    unfold read_text_from_file
    rw [read_text_body_json sys p hex hext, hr]
    dsimp only
    rw [hj]
  · intro c e hr hj
    unfold read_text_from_file
    rw [read_text_body_json sys p hex hext, hr]
    dsimp only
    rw [hj]

/-- A runtime in which every path exists, reads as `hi`, and the JSON
parser parses `hi` to the object with single member `a: 1`. -/
def sysJson : Sys Unit Unit :=
  { sysPlain with
    jsonLoad := fun c =>
      if c = "hi" then .ok (.obj (.cons "a" (.num 1) .nil)) else .error "bad" }

theorem extract_text_json_witness :
    read_text_from_file sysJson "b.json" =
      { printed := [],
        result := .ok (some (json_dumps (.obj (.cons "a" (.num 1) .nil)))) } :=
  (extract_text_json sysJson "b.json" (by decide) (by decide)).1
    "hi" (.obj (.cons "a" (.num 1) .nil)) rfl rfl

/-- Branch reduction: on an existing `.csv` path the body reads the file
and returns the comma-delimited canonicalization. -/
theorem read_text_body_csv {X Z : Type} (sys : Sys X Z) (p : String)
    (hex : sys.path_exists p = true) (hext : splitext_ext p = ".csv") :
    read_text_body sys p =
      (match sys.readText p with
       | .error e => .error e
       | .ok c => .ok ([], some (csv_decode ',' c))) := by
  unfold read_text_body
  rw [hex]
  simp only [Bool.true_eq_false, if_false, hext, true_or, or_true, ite_true]
  rw [if_neg (by decide), if_neg (by decide), if_neg (by decide)]

/-- Branch reduction: on an existing `.tsv` path the body reads the file
and returns the tab-delimited canonicalization. -/
theorem read_text_body_tsv {X Z : Type} (sys : Sys X Z) (p : String)
    (hex : sys.path_exists p = true) (hext : splitext_ext p = ".tsv") :
    read_text_body sys p =
      (match sys.readText p with
       | .error e => .error e
       | .ok c => .ok ([], some (csv_decode '\t' c))) := by
  unfold read_text_body
  rw [hex]
  simp only [Bool.true_eq_false, if_false, hext, true_or, or_true, ite_true,
    eq_false (show ¬((".tsv" : String) = ".csv") by decide)]
  rw [if_neg (by decide), if_neg (by decide), if_neg (by decide)]

/-- C5: for every existing `.csv` (comma) or `.tsv` (tab) path, the reader
returns the content parsed by the `csv` reader for that delimiter with each
record's fields re-joined by the same delimiter and records joined by
newlines (`csv_decode`); concretely, `1,2\n3,4` parses to the records
`[[1,2],[3,4]]` and re-joins to `1,2\n3,4`. -/
theorem extract_text_delimited {X Z : Type} (sys : Sys X Z) (p : String)
    (hex : sys.path_exists p = true) :
    (∀ c, splitext_ext p = ".csv" → sys.readText p = .ok c →
      read_text_from_file sys p =
        { printed := [], result := .ok (some (csv_decode ',' c)) }) ∧
    (∀ c, splitext_ext p = ".tsv" → sys.readText p = .ok c →
      read_text_from_file sys p =
        { printed := [], result := .ok (some (csv_decode '\t' c)) }) ∧
    csvParse ',' "1,2\n3,4" = [["1", "2"], ["3", "4"]] ∧
    csv_decode ',' "1,2\n3,4" = "1,2\n3,4" := by
  refine ⟨?_, ?_, by decide, by decide⟩
  · intro c hext hr
    unfold read_text_from_file
    rw [read_text_body_csv sys p hex hext, hr]
  · intro c hext hr
    unfold read_text_from_file
    rw [read_text_body_tsv sys p hex hext, hr]

theorem extract_text_delimited_witness :
    read_text_from_file sysPlain "w.csv" =
      { printed := [], result := .ok (some (csv_decode ',' "hi")) } :=
  (extract_text_delimited sysPlain "w.csv" (by decide)).1 "hi" (by decide) rfl

/-- Branch reduction: on an existing `.yaml`/`.yml` path the body checks
the PyYAML capability, then reads, safe-parses and re-serializes with
`default_flow_style=False, allow_unicode=True`; every failure is handled
inside the branch. -/
theorem read_text_body_yaml {X Z : Type} (sys : Sys X Z) (p : String)
    (hex : sys.path_exists p = true)
    (hext : splitext_ext p = ".yaml" ∨ splitext_ext p = ".yml") :
    read_text_body sys p =
      (if sys.yamlAvailable = false then
        .ok (["请安装 PyYAML 库以支持 YAML 文件: pip install pyyaml"], none)
      else
        match sys.readText p with
        | .error e => .ok (["读取 YAML 文件失败: " ++ e], none)
        | .ok c =>
          match sys.yamlSafeLoad c with
          | .error e => .ok (["读取 YAML 文件失败: " ++ e], none)
          | .ok v => .ok ([], some (sys.yamlDump false true v))) := by
  unfold read_text_body
  rw [hex]
  cases hext with
  | inl h =>
    simp only [Bool.true_eq_false, if_false, h, true_or, or_true, ite_true]
    rw [if_neg (by decide), if_neg (by decide), if_neg (by decide),
      if_neg (by decide), if_neg (by decide), if_neg (by decide),
      if_neg (by decide)]
  | inr h =>
    simp only [Bool.true_eq_false, if_false, h, true_or, or_true, ite_true]
    rw [if_neg (by decide), if_neg (by decide), if_neg (by decide),
      if_neg (by decide), if_neg (by decide), if_neg (by decide),
      if_neg (by decide)]

/-- C7: for every existing `.yaml`/`.yml` path: when the PyYAML capability
is unavailable, the reader returns Absence with the actionable message
naming PyYAML; when it is available, the content is safe-parsed
(`yaml.safe_load`) and re-serialized in block style with unicode allowed
(`yaml.dump(·, default_flow_style=False, allow_unicode=True)`), and a
parse failure yields Absence. -/
theorem extract_text_yaml {X Z : Type} (sys : Sys X Z) (p : String)
    (hex : sys.path_exists p = true)
    (hext : splitext_ext p = ".yaml" ∨ splitext_ext p = ".yml") :
    (sys.yamlAvailable = false →
      read_text_from_file sys p =
        { printed := ["请安装 PyYAML 库以支持 YAML 文件: pip install pyyaml"],
          result := .ok none }) ∧
    (∀ c v, sys.yamlAvailable = true → sys.readText p = .ok c →
      sys.yamlSafeLoad c = .ok v →
      read_text_from_file sys p =
        { printed := [], result := .ok (some (sys.yamlDump false true v)) }) ∧
    (∀ c e, sys.yamlAvailable = true → sys.readText p = .ok c →
      sys.yamlSafeLoad c = .error e →
      read_text_from_file sys p =
        { printed := ["读取 YAML 文件失败: " ++ e], result := .ok none }) := by
  refine ⟨?_, ?_, ?_⟩
  · intro hav
    unfold read_text_from_file
    rw [read_text_body_yaml sys p hex hext, if_pos hav]
  · intro c v hav hr hy
    unfold read_text_from_file
    rw [read_text_body_yaml sys p hex hext, if_neg (by simp [hav]), hr]
    dsimp only
    rw [hy]
  · intro c e hav hr hy
    unfold read_text_from_file
    rw [read_text_body_yaml sys p hex hext, if_neg (by simp [hav]), hr]
    dsimp only
    rw [hy]

theorem extract_text_yaml_witness :
    read_text_from_file sysPlain "c.yaml" =
      { printed := ["请安装 PyYAML 库以支持 YAML 文件: pip install pyyaml"],
        result := .ok none } :=
  (extract_text_yaml sysPlain "c.yaml" (by decide) (Or.inl (by decide))).1 rfl

/-- The flag list of `batch_copy_files` has one entry per source path. -/
theorem batch_copy_files_length (fs : FS) (srcs : List String) (d : String) :
    (batch_copy_files fs srcs d).1.length = srcs.length := by
  induction srcs generalizing fs with
  | nil => rfl
  | cons s rest ih =>
    unfold batch_copy_files
    simp [ih]

/-- The flag list of `batch_move_files` has one entry per source path. -/
theorem batch_move_files_length (fs : FS) (srcs : List String) (d : String) :
    (batch_move_files fs srcs d).1.length = srcs.length := by
  induction srcs generalizing fs with
  | nil => rfl
  | cons s rest ih =>
    unfold batch_move_files
    simp [ih]

/-- The `i`-th flag of `batch_copy_files` is the flag of copying the `i`-th
source to the destination directory joined with its basename, in the state
reached after processing the first `i` sources. -/
theorem batch_copy_files_get (fs : FS) (srcs : List String) (d : String) :
    ∀ i s, srcs[i]? = some s →
      (batch_copy_files fs srcs d).1[i]? =
        some ((copy_file ((batch_copy_files fs (srcs.take i) d).2) s
          (osJoin d (os_basename s))).1) := by
  induction srcs generalizing fs with
  | nil => intro i s h; simp at h
  | cons t rest ih =>
    intro i s h
    cases i with
    | zero =>
      simp at h
      subst h
      simp [batch_copy_files]
    | succ j =>
      simp at h
      have := ih (copy_file fs t (osJoin d (os_basename t))).2 j s h
      unfold batch_copy_files
      simpa using this

/-- The `i`-th flag of `batch_move_files` is the flag of moving the `i`-th
source to the destination directory joined with its basename, in the state
reached after processing the first `i` sources. -/
theorem batch_move_files_get (fs : FS) (srcs : List String) (d : String) :
    ∀ i s, srcs[i]? = some s →
      (batch_move_files fs srcs d).1[i]? =
        some ((move_file ((batch_move_files fs (srcs.take i) d).2) s
          (osJoin d (os_basename s))).1) := by
  induction srcs generalizing fs with
  | nil => intro i s h; simp at h
  | cons t rest ih =>
    intro i s h
    cases i with
    | zero =>
      simp at h
      subst h
      simp [batch_move_files]
    | succ j =>
      simp at h
      have := ih (move_file fs t (osJoin d (os_basename t))).2 j s h
      unfold batch_move_files
      simpa using this

/-- C10: for every source list, destination directory and filesystem state,
`batch_copy_files` and `batch_move_files` return exactly one boolean per
source path, and the `i`-th entry is the success flag of copying
(respectively moving) the `i`-th source to the destination directory joined
with that source's basename, processed in input order (i.e. in the state
left behind by the first `i` operations). -/
theorem batch_results_shape (fs : FS) (srcs : List String) (d : String) :
    (batch_copy_files fs srcs d).1.length = srcs.length ∧
    (batch_move_files fs srcs d).1.length = srcs.length ∧
    (∀ i s, srcs[i]? = some s →
      (batch_copy_files fs srcs d).1[i]? =
        some ((copy_file ((batch_copy_files fs (srcs.take i) d).2) s
          (osJoin d (os_basename s))).1)) ∧
    (∀ i s, srcs[i]? = some s →
      (batch_move_files fs srcs d).1[i]? =
        some ((move_file ((batch_move_files fs (srcs.take i) d).2) s
          (osJoin d (os_basename s))).1)) :=
  ⟨batch_copy_files_length fs srcs d, batch_move_files_length fs srcs d,
    batch_copy_files_get fs srcs d, batch_move_files_get fs srcs d⟩

theorem batch_results_shape_witness :
    (batch_copy_files fsX ["a", "b"] "dst").1.length = 2 ∧
    (batch_copy_files fsX ["a", "b"] "dst").1[0]? =
      some ((copy_file ((batch_copy_files fsX (["a", "b"].take 0) "dst").2) "a"
        (osJoin "dst" (os_basename "a"))).1) :=
  ⟨by have h := (batch_results_shape fsX ["a", "b"] "dst").1; simpa using h,
    (batch_results_shape fsX ["a", "b"] "dst").2.2.1 0 "a" (by decide)⟩

/-! ### Idempotence analysis of the delimited-table canonicalization -/

/-- `univNl` is the identity on text without carriage returns. -/
theorem univNl_eq_self (cs : List Char) (h : '\r' ∉ cs) : univNl cs = cs := by
  induction cs with
  | nil => rfl
  | cons c cs ih =>
    have hc : c ≠ '\r' := fun e => h (e ▸ List.mem_cons_self c cs)
    have h2 : '\r' ∉ cs := fun m => h (List.mem_cons_of_mem c m)
    cases cs with
    | nil => simp [univNl, hc]
    | cons c2 cs2 => simp [univNl, hc, ih h2]

/-- Appending one more chunk to a non-empty interspersion inserts one more
separator. -/
theorem joinWith_append_last (s x : List Char) (A : List (List Char))
    (h : A ≠ []) :
    joinWith s (A ++ [x]) = joinWith s A ++ s ++ x := by
  induction A with
  | nil => exact absurd rfl h
  | cons a A ih =>
    cases A with
    | nil => simp [joinWith]
    | cons b B =>
      simp only [List.cons_append, joinWith, List.append_eq]
      have e : b :: (B ++ [x]) = (b :: B) ++ [x] := by simp
      rw [e, ih (by simp)]
      simp [List.append_assoc]

/-- Extending the final chunk of an interspersion appends the extension to
the result. -/
theorem joinWith_last_append (s : List Char) (row : List (List Char))
    (a b : List Char) :
    joinWith s (row ++ [a ++ b]) = joinWith s (row ++ [a]) ++ b := by
  cases row with
  | nil => simp [joinWith]
  | cons r R =>
    rw [joinWith_append_last s (a ++ b) (r :: R) (by simp),
      joinWith_append_last s a (r :: R) (by simp)]
    simp [List.append_assoc]

/-- The character-level output of re-joining a record list: fields with the
delimiter, records with newlines. -/
def csvJoinRows (d : Char) (rows : List (List (List Char))) : List Char :=
  joinWith ['\n'] (rows.map (joinWith [d]))

/-- On quote-free input (with the current field still empty) the
`startField` and `inField` states of the reader behave identically. -/
theorem csvRun_startField_eq_inField (d : Char) (hdq : d ≠ '"')
    (hdn : d ≠ '\n') (cs : List Char) (hq : '"' ∉ cs)
    (rows : List (List (List Char))) (row : List (List Char)) :
    csvRun d rows row [] .startField cs = csvRun d rows row [] .inField cs := by
  cases cs with
  | nil => rfl
  | cons c cs =>
    have hc : c ≠ '"' := fun e => hq (e ▸ List.mem_cons_self c cs)
    by_cases hn : c = '\n'
    · subst hn
      have hd2 : ('\n' : Char) ≠ d := fun e => hdn e.symm
      simp [csvRun, hc, hd2]
    · by_cases hcd : c = d
      · simp [csvRun, hc, hn, hcd, hdq, hdn]
      · simp [csvRun, hc, hn, hcd]

/-- Running the reader on quote-free input that does not end in a newline
and re-joining gives back exactly the pending text: from `inField` the rest
of the input extends the current field/record, and from `startRecord` it
forms the remaining records. -/
theorem csvRun_join (d : Char) (hdq : d ≠ '"') (hdn : d ≠ '\n') :
    ∀ cs : List Char, '"' ∉ cs → cs.getLast? ≠ some '\n' →
      (∀ rows row f,
        csvJoinRows d (csvRun d rows row f .inField cs) =
          csvJoinRows d (rows ++ [row ++ [f ++ cs]])) ∧
      (∀ rows,
        csvJoinRows d (csvRun d rows [] [] .startRecord cs) =
          if cs = [] then csvJoinRows d rows
          else csvJoinRows d (rows ++ [[cs]])) := by
  intro cs
  induction cs with
  | nil =>
    intro hq hl
    constructor
    · intro rows row f
      simp [csvRun]
    · intro rows
      simp [csvRun]
  | cons c cs ih =>
    intro hq hl
    have hc : c ≠ '"' := fun e => hq (e ▸ List.mem_cons_self c cs)
    have hq2 : '"' ∉ cs := fun m => hq (List.mem_cons_of_mem c m)
    have hl2 : cs.getLast? ≠ some '\n' := by
      cases cs with
      | nil => simp
      | cons c2 cs2 => rw [List.getLast?_cons_cons] at hl; exact hl
    constructor
    · intro rows row f
      by_cases hn : c = '\n'
      · subst hn
        have hne : cs ≠ [] := by
          intro e
          subst e
          simp at hl
        have step : csvRun d rows row f .inField ('\n' :: cs) =
            csvRun d (rows ++ [row ++ [f]]) [] [] .startRecord cs := by
          simp [csvRun]
        rw [step, (ih hq2 hl2).2 (rows ++ [row ++ [f]]), if_neg hne]
        have hfield : joinWith [d] (row ++ [f ++ ('\n' :: cs)]) =
            joinWith [d] (row ++ [f]) ++ '\n' :: cs :=
          joinWith_last_append [d] row f ('\n' :: cs)
        simp only [csvJoinRows, List.map_append, List.map_cons, List.map_nil,
          hfield]
        rw [show joinWith [d] [cs] = cs from rfl]
        rw [joinWith_append_last ['\n'] cs
          (rows.map (joinWith [d]) ++ [joinWith [d] (row ++ [f])]) (by simp)]
        rw [joinWith_last_append ['\n'] (rows.map (joinWith [d]))
          (joinWith [d] (row ++ [f])) ('\n' :: cs)]
        simp [List.append_assoc]
      · by_cases hcd : c = d
        · have step : csvRun d rows row f .inField (c :: cs) =
              csvRun d rows (row ++ [f]) [] .startField cs := by
            simp [csvRun, hn, hcd, hdn]
          rw [step, csvRun_startField_eq_inField d hdq hdn cs hq2,
            (ih hq2 hl2).1 rows (row ++ [f]) []]
          have hfield : joinWith [d] ((row ++ [f]) ++ [[] ++ cs]) =
              joinWith [d] (row ++ [f ++ (c :: cs)]) := by
            rw [List.nil_append,
              joinWith_append_last [d] cs (row ++ [f]) (by simp),
              joinWith_last_append [d] row f (c :: cs), hcd]
            simp [List.append_assoc]
          simp only [csvJoinRows, List.map_append, List.map_cons, List.map_nil,
            hfield]
        · have step : csvRun d rows row f .inField (c :: cs) =
              csvRun d rows row (f ++ [c]) .inField cs := by
            simp [csvRun, hn, hcd]
          rw [step, (ih hq2 hl2).1 rows row (f ++ [c])]
          simp [List.append_assoc]
    · intro rows
      rw [if_neg (List.cons_ne_nil c cs)]
      by_cases hn : c = '\n'
      · subst hn
        have hne : cs ≠ [] := by
          intro e
          subst e
          simp at hl
        have step : csvRun d rows [] [] .startRecord ('\n' :: cs) =
            csvRun d (rows ++ [[]]) [] [] .startRecord cs := by
          simp [csvRun]
        rw [step, (ih hq2 hl2).2 (rows ++ [[]]), if_neg hne]
        by_cases hA : rows = []
        · subst hA
          simp [csvJoinRows, joinWith]
        · have hmap : rows.map (joinWith [d]) ≠ [] := by simpa using hA
          simp only [csvJoinRows, List.map_append, List.map_cons, List.map_nil]
          rw [show joinWith [d] [cs] = cs from rfl,
            show joinWith [d] ([] : List (List Char)) = [] from rfl]
          rw [joinWith_append_last ['\n'] cs
            (rows.map (joinWith [d]) ++ [[]]) (by simp)]
          rw [joinWith_append_last ['\n'] [] (rows.map (joinWith [d])) hmap]
          rw [show joinWith [d] [('\n' :: cs)] = '\n' :: cs from rfl]
          rw [joinWith_append_last ['\n'] ('\n' :: cs)
            (rows.map (joinWith [d])) hmap]
          simp [List.append_assoc]
      · by_cases hcd : c = d
        · have step : csvRun d rows [] [] .startRecord (c :: cs) =
              csvRun d rows [[]] [] .startField cs := by
            simp [csvRun, hn, hc, hcd, hdn, hdq]
          rw [step, csvRun_startField_eq_inField d hdq hdn cs hq2,
            (ih hq2 hl2).1 rows [[]] []]
          have hfield : joinWith [d] ([[]] ++ [[] ++ cs]) =
              joinWith [d] [c :: cs] := by
            simp [joinWith, hcd]
          simp only [csvJoinRows, List.map_append, List.map_cons, List.map_nil,
            hfield]
        · have step : csvRun d rows [] [] .startRecord (c :: cs) =
              csvRun d rows [] [c] .inField cs := by
            simp [csvRun, hn, hc, hcd]
          rw [step, (ih hq2 hl2).1 rows [] [c]]
          simp

/-- The delimited-table decoder is the identity on quote-free,
carriage-return-free content not ending in a newline. -/
theorem csvDecodeChars_eq_self (d : Char) (hdq : d ≠ '"') (hdn : d ≠ '\n')
    (cs : List Char) (hq : '"' ∉ cs) (hr : '\r' ∉ cs)
    (hl : cs.getLast? ≠ some '\n') :
    csvDecodeChars d cs = cs := by
  have h := (csvRun_join d hdq hdn cs hq hl).2 []
  unfold csvDecodeChars csvParseChars
  rw [univNl_eq_self cs hr]
  show csvJoinRows d (csvRun d [] [] [] .startRecord cs) = cs
  rw [h]
  by_cases hcs : cs = []
  · subst hcs
    simp [csvJoinRows, joinWith]
  · rw [if_neg hcs]
    simp [csvJoinRows, joinWith]

/-- C6 counterexample: the CSV canonicalization is NOT idempotent.  The
file content consisting of one quoted field holding a quote and an `a`
canonicalizes to the two characters quote-`a`, which the second pass reads
as an (unterminated) quoted field, yielding just `a`. -/
theorem csv_decode_not_idempotent_cex :
    csv_decode ',' (csv_decode ',' "\"\"\"a\"") ≠ csv_decode ',' "\"\"\"a\"" := by
  decide

/-- C6 amended: the CSV canonicalization is idempotent on every input whose
canonicalized output contains no quote character and no carriage return
and does not end in a newline (quote-stripping on the first pass is what
breaks idempotence in general). -/
theorem csv_decode_idempotent_of_clean (s : String)
    (hq : '"' ∉ (csv_decode ',' s).data)
    (hr : '\r' ∉ (csv_decode ',' s).data)
    (hl : (csv_decode ',' s).data.getLast? ≠ some '\n') :
    csv_decode ',' (csv_decode ',' s) = csv_decode ',' s :=
  calc csv_decode ',' (csv_decode ',' s)
      = String.mk (csvDecodeChars ',' (csv_decode ',' s).data) := rfl
    _ = String.mk ((csv_decode ',' s).data) := by
        rw [csvDecodeChars_eq_self ',' (by decide) (by decide) _ hq hr hl]
    _ = csv_decode ',' s := rfl

theorem csv_decode_idempotent_witness :
    csv_decode ',' (csv_decode ',' "1,2\n3,4") = csv_decode ',' "1,2\n3,4" :=
  csv_decode_idempotent_of_clean "1,2\n3,4" (by decide) (by decide) (by decide)
